import Mathlib

/-!
Verification development for the podcastify FastAPI service
(`src/podcastfy/api/fast_app.py`).

The Python code is shallowly embedded:
* Python dicts are association lists; because `merge_configs` performs a
  shallow `dict.copy()` and an in-place `dict.update` on a nested dict,
  dict-valued entries are modelled as references (`Val.vref`) into an
  explicit store, so aliasing and mutation are visible.
* The filesystem is a list of (path, contents) pairs plus a log of the
  paths passed to `os.remove`, so "deleted exactly once" is expressible.
* External collaborators (pydub decode/encode, S3 upload, Supabase) are
  modelled by an environment record giving each call's outcome.
-/

namespace Podcastify

/-! ### Association lists (Python `dict`) -/

/-- First-match lookup in an association list, like Python `d[k]` /
`d.get(k)` on a dict with unique keys. -/
def alookup {α β : Type} [DecidableEq α] : List (α × β) → α → Option β
  | [], _ => none
  | (k', v) :: rest, k => if k' = k then some v else alookup rest k

/-- Python `d[k] = v`: replace the value in place if the key is present
(keeping its position), otherwise append the new entry at the end. -/
def aset {α β : Type} [DecidableEq α] : List (α × β) → α → β → List (α × β)
  | [], k, v => [(k, v)]
  | (k', v') :: rest, k, v =>
      if k' = k then (k, v) :: rest else (k', v') :: aset rest k v

/-- Remove the (first) entry with the given key, like deleting a file
from a directory listing. -/
def aerase {α β : Type} [DecidableEq α] : List (α × β) → α → List (α × β)
  | [], _ => []
  | (k', v) :: rest, k => if k' = k then rest else (k', v) :: aerase rest k

theorem alookup_aset {α β : Type} [DecidableEq α]
    (l : List (α × β)) (k k' : α) (v : β) :
    alookup (aset l k v) k' = if k = k' then some v else alookup l k' := by
  induction l with
  | nil => simp [aset, alookup]
  | cons hd tl ih =>
      obtain ⟨k0, v0⟩ := hd
      by_cases h0 : k0 = k
      · subst h0
        by_cases h : k0 = k' <;> simp [aset, alookup, h]
      · by_cases h1 : k0 = k'
        · subst h1
          have hkk : ¬ k = k0 := fun hh => h0 hh.symm
          simp [aset, alookup, h0, hkk]
        · by_cases h : k = k'
          · subst h
            simp [aset, alookup, h0, h1, ih]
          · simp [aset, alookup, h0, h1, h, ih]

theorem alookup_append_some {α β : Type} [DecidableEq α]
    {l₁ : List (α × β)} (l₂ : List (α × β)) {k : α} {v : β}
    (h : alookup l₁ k = some v) : alookup (l₁ ++ l₂) k = some v := by
  induction l₁ with
  | nil => simp [alookup] at h
  | cons hd tl ih =>
      obtain ⟨k0, v0⟩ := hd
      by_cases h0 : k0 = k <;> simp_all [alookup, h0]

theorem alookup_append_none {α β : Type} [DecidableEq α]
    {l₁ : List (α × β)} (l₂ : List (α × β)) {k : α}
    (h : alookup l₁ k = none) : alookup (l₁ ++ l₂) k = alookup l₂ k := by
  induction l₁ with
  | nil => simp [alookup]
  | cons hd tl ih =>
      obtain ⟨k0, v0⟩ := hd
      by_cases h0 : k0 = k <;> simp_all [alookup, h0]

theorem alookup_none_of_not_mem_keys {α β : Type} [DecidableEq α]
    {l : List (α × β)} {k : α} (h : k ∉ l.map Prod.fst) :
    alookup l k = none := by
  induction l with
  | nil => simp [alookup]
  | cons hd tl ih =>
      obtain ⟨k0, v0⟩ := hd
      simp only [List.map_cons, List.mem_cons] at h
      push_neg at h
      have hne : ¬ k0 = k := fun hh => h.1 hh.symm
      simp [alookup, hne, ih h.2]

/-- Largest key occurring in a `Nat`-keyed association list. -/
def maxKey {β : Type} : List (Nat × β) → Nat
  | [] => 0
  | (k, _) :: rest => max k (maxKey rest)

theorem alookup_none_of_maxKey_lt {β : Type}
    (l : List (Nat × β)) (a : Nat) (h : maxKey l < a) : alookup l a = none := by
  induction l with
  | nil => simp [alookup]
  | cons hd tl ih =>
      obtain ⟨k0, v0⟩ := hd
      simp only [maxKey, max_lt_iff] at h
      simp [alookup, Nat.ne_of_lt h.1, ih h.2]

/-! ### Configuration values and the dict store

`merge_configs` (fast_app.py lines 34-48) copies the base dict shallowly
(`base_config.copy()`) and then calls `merged['text_to_speech'].update(...)`,
which mutates the dict object that the base's `text_to_speech` key still
points to.  To make this aliasing observable, dict values of type dict are
references (`Val.vref`) into a store of allocated dicts. -/

/-- A YAML/JSON-ish value sitting in a Python dict: `None`, a scalar
(represented by its printed form), or a reference to another dict. -/
inductive Val where
  | vnull : Val
  | vstr : String → Val
  | vref : Nat → Val
deriving DecidableEq, Repr

/-- A Python dict: insertion-ordered association list with unique keys. -/
abbrev Dict := List (String × Val)

/-- The heap of allocated dict objects, keyed by address. -/
abbrev Store := List (Nat × Dict)

/-- Address never used by `σ` (strictly above every allocated address). -/
def freshAddr (σ : Store) : Nat := maxKey σ + 1

theorem alookup_freshAddr (σ : Store) : alookup σ (freshAddr σ) = none :=
  alookup_none_of_maxKey_lt σ _ (Nat.lt_succ_self _)

/-- Allocate a new dict object (Python object creation, e.g. `d.copy()`). -/
def alloc (σ : Store) (d : Dict) : Store × Nat :=
  (σ ++ [(freshAddr σ, d)], freshAddr σ)

/-- A left fold of conditional `d[k] = v` assignments over the entries of
`u`, in order.  With `keep := fun _ _ => true` this is Python's
`d.update(u)`; `merge_configs`' top-level for-loop is the same fold with
its skip conditions. -/
def foldSet (keep : String → Val → Bool) (d u : Dict) : Dict :=
  u.foldl (fun acc kv => if keep kv.1 kv.2 then aset acc kv.1 kv.2 else acc) d

/-- Python `d.update(u)`: assign every entry of `u` into `d` in order. -/
def dictUpdate (d u : Dict) : Dict := foldSet (fun _ _ => true) d u

/-- The `for key, value in user_config.items()` loop of `merge_configs`:
skip `text_to_speech`, and only assign non-`None` values. -/
def applyTopLevel (d u : Dict) : Dict :=
  foldSet (fun k v =>
    if k = "text_to_speech" then false
    else if v = Val.vnull then false
    else true) d u

/-- Shallow embedding of `merge_configs(base_config, user_config)`
(fast_app.py lines 34-48).  `base` and `user` are the addresses of the two
argument dicts.  Steps, in source order:
1. `merged = base_config.copy()` — allocate a fresh dict with the same
   entries (a shallow copy: `vref` values still point at the old objects);
2. if both dicts have a `text_to_speech` key, `merged['text_to_speech']`
   (which aliases the base's sub-dict) is `.update`d in place with the
   user's `text_to_speech` entries — an in-place store write at the base
   sub-dict's address (the match requires both values to be dict
   references; with non-dict values Python would raise, and the theorems
   below only cover well-formed, dict-valued `text_to_speech` entries);
3. the for-loop assigns every non-`None`, non-`text_to_speech` user entry
   into `merged`.
A dangling address reads as the empty dict, which also realises the
spec's "missing base treated as an empty mapping". -/
def merge_configs (σ : Store) (base user : Nat) : Store × Nat :=
  let bd := (alookup σ base).getD []
  let ud := (alookup σ user).getD []
  let am := alloc σ bd
  let σ1 := am.1
  let m := am.2
  let σ2 :=
    match alookup bd "text_to_speech", alookup ud "text_to_speech" with
    | some (Val.vref t), some (Val.vref u) =>
        let told := (alookup σ1 t).getD []
        let utts := (alookup σ1 u).getD []
        aset σ1 t (dictUpdate told utts)
    | _, _ => σ1
  let md := (alookup σ2 m).getD []
  let md2 := applyTopLevel md ud
  (aset σ2 m md2, m)

/-- The dict returned by `merge_configs`, read out of the final store. -/
def resultDict (r : Store × Nat) : Dict := (alookup r.1 r.2).getD []

theorem alookup_foldSet (keep : String → Val → Bool) (d u : Dict) (k : String)
    (hu : (u.map Prod.fst).Nodup) :
    alookup (foldSet keep d u) k =
      match alookup u k with
      | some v => if keep k v then some v else alookup d k
      | none => alookup d k := by
  induction u generalizing d with
  | nil => simp [foldSet, alookup]
  | cons hd tl ih =>
      obtain ⟨k0, v0⟩ := hd
      simp only [List.map_cons, List.nodup_cons] at hu
      have step : foldSet keep d ((k0, v0) :: tl)
          = foldSet keep (if keep k0 v0 then aset d k0 v0 else d) tl := by
        simp [foldSet]
      rw [step, ih _ hu.2]
      by_cases hk : k0 = k
      · subst hk
        have htl : alookup tl k0 = none :=
          alookup_none_of_not_mem_keys hu.1
        simp [alookup, htl]
        by_cases hkeep : keep k0 v0 = true
        · simp [hkeep, alookup_aset]
        · simp [hkeep]
      · have hd' : alookup (if keep k0 v0 then aset d k0 v0 else d) k
            = alookup d k := by
          by_cases hkeep : keep k0 v0 = true
          · simp [hkeep, alookup_aset, hk]
          · simp [hkeep]
        simp [alookup, hk, hd']

/-- `dictUpdate` read back per key: the override's value when the key is
present (unique keys), otherwise the base's. -/
theorem alookup_dictUpdate (d u : Dict) (k : String)
    (hu : (u.map Prod.fst).Nodup) :
    alookup (dictUpdate d u) k =
      match alookup u k with
      | some v => some v
      | none => alookup d k := by
  rw [dictUpdate, alookup_foldSet _ _ _ _ hu]
  cases alookup u k <;> simp

/-- The claim's generic top-level rule, written from the spec's words:
"override value when non-null, base value otherwise". -/
def overrideElseBase (bd od : Dict) (k : String) : Option Val :=
  match alookup od k with
  | some v => if v = Val.vnull then alookup bd k else some v
  | none => alookup bd k

/-- Unfolding of `merge_configs` when both configs carry live dict-valued
`text_to_speech` entries: the base's sub-dict at `t` is overwritten in
place, and the fresh merged dict gets the top-level overrides. -/
theorem merge_configs_run_tts (σ : Store) (b o : Nat) (bd od : Dict)
    (t u : Nat) (btts otts : Dict)
    (hb : alookup σ b = some bd) (ho : alookup σ o = some od)
    (hbt : alookup bd "text_to_speech" = some (Val.vref t))
    (hot : alookup od "text_to_speech" = some (Val.vref u))
    (hbtts : alookup σ t = some btts) (hotts : alookup σ u = some otts) :
    merge_configs σ b o =
      (aset (aset (σ ++ [(freshAddr σ, bd)]) t (dictUpdate btts otts))
        (freshAddr σ) (applyTopLevel bd od), freshAddr σ) := by
  have hm : alookup σ (freshAddr σ) = none := alookup_freshAddr σ
  have ht1 : alookup (σ ++ [(freshAddr σ, bd)]) t = some btts :=
    alookup_append_some _ hbtts
  have hu1 : alookup (σ ++ [(freshAddr σ, bd)]) u = some otts :=
    alookup_append_some _ hotts
  have htm : ¬ t = freshAddr σ := by
    intro h
    rw [h, hm] at hbtts
    exact Option.noConfusion hbtts
  have hm1 : alookup (σ ++ [(freshAddr σ, bd)]) (freshAddr σ) = some bd := by
    rw [alookup_append_none _ hm]
    simp [alookup]
  have hm2 : alookup (aset (σ ++ [(freshAddr σ, bd)]) t (dictUpdate btts otts))
      (freshAddr σ) = some bd := by
    rw [alookup_aset]
    simp [htm, hm1]
  simp only [merge_configs, alloc, hb, ho, Option.getD_some, hbt, hot,
    ht1, hu1, hm2]

/-- Unfolding of `merge_configs` when the base config has no
`text_to_speech` key: no sub-dict is touched, only the fresh merged dict
is written. -/
theorem merge_configs_run_nobase_tts (σ : Store) (b o : Nat) (bd od : Dict)
    (hb : alookup σ b = some bd) (ho : alookup σ o = some od)
    (hbt : alookup bd "text_to_speech" = none) :
    merge_configs σ b o =
      (aset (σ ++ [(freshAddr σ, bd)]) (freshAddr σ) (applyTopLevel bd od),
        freshAddr σ) := by
  have hm : alookup σ (freshAddr σ) = none := alookup_freshAddr σ
  have hm1 : alookup (σ ++ [(freshAddr σ, bd)]) (freshAddr σ) = some bd := by
    rw [alookup_append_none _ hm]
    simp [alookup]
  simp only [merge_configs, alloc, hb, ho, Option.getD_some, hbt, hm1]

/-- Unfolding of `merge_configs` when the user config has no
`text_to_speech` key (base arbitrary): the in-place update is skipped. -/
theorem merge_configs_run_nouser_tts (σ : Store) (b o : Nat) (bd od : Dict)
    (hb : alookup σ b = some bd) (ho : alookup σ o = some od)
    (hot : alookup od "text_to_speech" = none) :
    merge_configs σ b o =
      (aset (σ ++ [(freshAddr σ, bd)]) (freshAddr σ) (applyTopLevel bd od),
        freshAddr σ) := by
  have hm : alookup σ (freshAddr σ) = none := alookup_freshAddr σ
  have hm1 : alookup (σ ++ [(freshAddr σ, bd)]) (freshAddr σ) = some bd := by
    rw [alookup_append_none _ hm]
    simp [alookup]
  cases hbt : alookup bd "text_to_speech" with
  | none => simp only [merge_configs, alloc, hb, ho, Option.getD_some, hbt, hot, hm1]
  | some v =>
      cases v <;>
        simp only [merge_configs, alloc, hb, ho, Option.getD_some, hbt, hot, hm1]

/-- The dict allocated and returned by `merge_configs` holds exactly the
top-level-merged entries. -/
theorem resultDict_aset (σ2 : Store) (m : Nat) (d : Dict) :
    resultDict (aset σ2 m d, m) = d := by
  simp [resultDict, alookup_aset]

/-- For well-formed configs (a `text_to_speech` entry, when present, is a
live dict reference) the merged dict is `applyTopLevel bd od`. -/
theorem merge_resultDict (σ : Store) (b o : Nat) (bd od : Dict)
    (hb : alookup σ b = some bd) (ho : alookup σ o = some od)
    (hwfb : ∀ v, alookup bd "text_to_speech" = some v →
        ∃ t d, v = Val.vref t ∧ alookup σ t = some d)
    (hwfo : ∀ v, alookup od "text_to_speech" = some v →
        ∃ t d, v = Val.vref t ∧ alookup σ t = some d) :
    resultDict (merge_configs σ b o) = applyTopLevel bd od := by
  cases hbt : alookup bd "text_to_speech" with
  | none => rw [merge_configs_run_nobase_tts σ b o bd od hb ho hbt, resultDict_aset]
  | some v =>
      obtain ⟨t, dt, hv, hlive⟩ := hwfb v hbt
      subst hv
      cases hot : alookup od "text_to_speech" with
      | none => rw [merge_configs_run_nouser_tts σ b o bd od hb ho hot, resultDict_aset]
      | some w =>
          obtain ⟨u, du, hw, hliveu⟩ := hwfo w hot
          subst hw
          rw [merge_configs_run_tts σ b o bd od t u dt du hb ho hbt hot hlive hliveu,
            resultDict_aset]

/-- Reading a non-`text_to_speech` key out of the top-level loop's result
gives the claim's "override if non-null else base" rule. -/
theorem applyTopLevel_lookup (bd od : Dict) (k : String)
    (hnd : (od.map Prod.fst).Nodup) (hk : k ≠ "text_to_speech") :
    alookup (applyTopLevel bd od) k = overrideElseBase bd od k := by
  rw [applyTopLevel, alookup_foldSet _ _ _ _ hnd, overrideElseBase]
  cases halt : alookup od k with
  | none => rfl
  | some v =>
      by_cases hv : v = Val.vnull <;> simp [hk, hv]

/-- The top-level loop never writes the `text_to_speech` key. -/
theorem applyTopLevel_tts (bd od : Dict) (hnd : (od.map Prod.fst).Nodup) :
    alookup (applyTopLevel bd od) "text_to_speech"
      = alookup bd "text_to_speech" := by
  rw [applyTopLevel, alookup_foldSet _ _ _ _ hnd]
  cases halt : alookup od "text_to_speech" <;> simp

/-! #### Claim C1 -/

/-- Concrete store refuting C1 as stated: the base dict (address 0) has
no `text_to_speech` key while the override (address 1) has one. -/
def σc1 : Store :=
  [(0, []), (1, [("text_to_speech", Val.vref 2)]), (2, [("k", Val.vstr "v")])]

/-- **C1, counterexample.**  With base `{}` and override
`{'text_to_speech': {'k': 'v'}}`, the claim demands that the merged
mapping's `text_to_speech` entry be the override's sub-mapping (base's
empty/missing sub-mapping with the override's present key `k` overlaid);
but `merge_configs` drops the override's `text_to_speech` entirely (the
nested-update branch requires the key in *both* dicts and the top-level
loop skips the key), so the merged dict has no `text_to_speech` entry at
all. -/
theorem C1_counterexample :
    alookup σc1 1 = some [("text_to_speech", Val.vref 2)]
    ∧ alookup σc1 2 = some [("k", Val.vstr "v")]
    ∧ alookup (resultDict (merge_configs σc1 0 1)) "text_to_speech" = none := by
  decide

/-- **C1 (amended).**  For well-formed configs (every `text_to_speech`
value, when present, is a live dict reference; override keys unique):
(1) every non-`text_to_speech` top-level key of the merged mapping equals
the override value when non-null and the base value otherwise;
(2) when *both* base and override carry `text_to_speech` sub-mappings,
the merged mapping's `text_to_speech` is the base's sub-mapping with the
override's present keys overlaid key-by-key (override wins per key, not
wholesale replacement);
(3) but when the base lacks a `text_to_speech` key, the override's
`text_to_speech` is ignored and the merged mapping has none — this is
where the original claim fails. -/
theorem C1_merge_configs_amended (σ : Store) (b o : Nat) (bd od : Dict)
    (hb : alookup σ b = some bd) (ho : alookup σ o = some od)
    (hodnd : (od.map Prod.fst).Nodup)
    (hwfb : ∀ v, alookup bd "text_to_speech" = some v →
        ∃ t d, v = Val.vref t ∧ alookup σ t = some d)
    (hwfo : ∀ v, alookup od "text_to_speech" = some v →
        ∃ t d, v = Val.vref t ∧ alookup σ t = some d) :
    (∀ k, k ≠ "text_to_speech" →
        alookup (resultDict (merge_configs σ b o)) k = overrideElseBase bd od k)
    ∧ (∀ t u btts otts,
        alookup bd "text_to_speech" = some (Val.vref t) →
        alookup od "text_to_speech" = some (Val.vref u) →
        alookup σ t = some btts → alookup σ u = some otts →
        alookup (resultDict (merge_configs σ b o)) "text_to_speech"
            = some (Val.vref t)
        ∧ alookup (merge_configs σ b o).1 t = some (dictUpdate btts otts)
        ∧ ∀ k, (otts.map Prod.fst).Nodup →
            alookup (dictUpdate btts otts) k =
              match alookup otts k with
              | some v => some v
              | none => alookup btts k)
    ∧ (alookup bd "text_to_speech" = none →
        alookup (resultDict (merge_configs σ b o)) "text_to_speech" = none) := by
  have hres := merge_resultDict σ b o bd od hb ho hwfb hwfo
  refine ⟨?_, ?_, ?_⟩
  · intro k hk
    rw [hres, applyTopLevel_lookup bd od k hodnd hk]
  · intro t u btts otts hbt hot hbtts hotts
    have hm : alookup σ (freshAddr σ) = none := alookup_freshAddr σ
    have htm : ¬ freshAddr σ = t := by
      intro h
      rw [← h, hm] at hbtts
      exact Option.noConfusion hbtts
    refine ⟨?_, ?_, ?_⟩
    · rw [hres, applyTopLevel_tts bd od hodnd, hbt]
    · rw [merge_configs_run_tts σ b o bd od t u btts otts hb ho hbt hot hbtts hotts]
      simp only [alookup_aset, htm, if_false]
      simp [alookup_aset]
    · intro k hnd
      exact alookup_dictUpdate btts otts k hnd
  · intro hbt
    rw [hres, applyTopLevel_tts bd od hodnd, hbt]

/-! #### Claim C9 -/

/-- Concrete store refuting C9: base (address 0) and override (address 1)
both carry `text_to_speech` sub-dicts (addresses 2 and 3). -/
def σc9 : Store :=
  [(0, [("text_to_speech", Val.vref 2)]),
   (1, [("text_to_speech", Val.vref 3)]),
   (2, [("a", Val.vstr "1")]),
   (3, [("a", Val.vstr "2")])]

/-- **C9, counterexample.**  `merge_configs` is not side-effect-free:
`merged = base_config.copy()` is shallow, so
`merged['text_to_speech'].update(...)` mutates the very dict object the
*base*'s `text_to_speech` key points to.  Before the call the base's
sub-dict (address 2) maps `a ↦ "1"`; afterwards it maps `a ↦ "2"`. -/
theorem C9_counterexample :
    alookup σc9 2 = some [("a", Val.vstr "1")]
    ∧ alookup (merge_configs σc9 0 1).1 2 = some [("a", Val.vstr "2")] := by
  decide

/-- **C9 (amended).**  When both configs carry live `text_to_speech`
sub-dicts, `merge_configs` leaves the override dict, the base's top-level
dict, the override's `text_to_speech` sub-dict and every other allocated
dict unchanged — but it *does* mutate the base's `text_to_speech`
sub-dict in place, overlaying the override's entries. -/
theorem C9_merge_configs_amended (σ : Store) (b o : Nat) (bd od : Dict)
    (t u : Nat) (btts otts : Dict)
    (hb : alookup σ b = some bd) (ho : alookup σ o = some od)
    (hbt : alookup bd "text_to_speech" = some (Val.vref t))
    (hot : alookup od "text_to_speech" = some (Val.vref u))
    (hbtts : alookup σ t = some btts) (hotts : alookup σ u = some otts)
    (hntb : t ≠ b) (hnto : t ≠ o) :
    alookup (merge_configs σ b o).1 b = some bd
    ∧ alookup (merge_configs σ b o).1 o = some od
    ∧ (t ≠ u → alookup (merge_configs σ b o).1 u = some otts)
    ∧ alookup (merge_configs σ b o).1 t = some (dictUpdate btts otts)
    ∧ (∀ a d, alookup σ a = some d → a ≠ t →
        alookup (merge_configs σ b o).1 a = some d) := by
  have hm : alookup σ (freshAddr σ) = none := alookup_freshAddr σ
  have hframe : ∀ a d, alookup σ a = some d → a ≠ t →
      alookup (merge_configs σ b o).1 a = some d := by
    intro a d ha hat
    have ham : ¬ freshAddr σ = a := by
      intro h
      rw [← h, hm] at ha
      exact Option.noConfusion ha
    rw [merge_configs_run_tts σ b o bd od t u btts otts hb ho hbt hot hbtts hotts]
    simp only [alookup_aset, ham, if_false]
    have hta : ¬ t = a := fun h => hat h.symm
    simp only [hta, if_false]
    exact alookup_append_some _ ha
  have htm : ¬ freshAddr σ = t := by
    intro h
    rw [← h, hm] at hbtts
    exact Option.noConfusion hbtts
  refine ⟨hframe b bd hb (fun h => hntb h.symm),
    hframe o od ho (fun h => hnto h.symm), ?_, ?_, hframe⟩
  · intro hnu
    exact hframe u otts hotts (fun h => hnu h.symm)
  · rw [merge_configs_run_tts σ b o bd od t u btts otts hb ho hbt hot hbtts hotts]
    simp only [alookup_aset, htm, if_false]
    simp [alookup_aset]

/-- Concrete well-formed store for the C1/C9 witnesses: base dict at 0,
override dict at 1, their `text_to_speech` sub-dicts at 2 and 3. -/
def σw : Store :=
  [(0, [("text_to_speech", Val.vref 2), ("x", Val.vstr "bx"), ("y", Val.vstr "by")]),
   (1, [("text_to_speech", Val.vref 3), ("x", Val.vstr "ox"), ("z", Val.vnull)]),
   (2, [("q", Val.vstr "v1"), ("a", Val.vstr "b1")]),
   (3, [("q", Val.vstr "v2")])]

def bdw : Dict :=
  [("text_to_speech", Val.vref 2), ("x", Val.vstr "bx"), ("y", Val.vstr "by")]

def odw : Dict :=
  [("text_to_speech", Val.vref 3), ("x", Val.vstr "ox"), ("z", Val.vnull)]

theorem σw_wfb : ∀ v, alookup bdw "text_to_speech" = some v →
    ∃ t d, v = Val.vref t ∧ alookup σw t = some d := by
  intro v hv
  have hv2 : alookup bdw "text_to_speech" = some (Val.vref 2) := by decide
  rw [hv2] at hv
  exact ⟨2, [("q", Val.vstr "v1"), ("a", Val.vstr "b1")],
    (Option.some.inj hv).symm, by decide⟩

theorem σw_wfo : ∀ v, alookup odw "text_to_speech" = some v →
    ∃ t d, v = Val.vref t ∧ alookup σw t = some d := by
  intro v hv
  have hv2 : alookup odw "text_to_speech" = some (Val.vref 3) := by decide
  rw [hv2] at hv
  exact ⟨3, [("q", Val.vstr "v2")], (Option.some.inj hv).symm, by decide⟩

/-- **C1, witness.**  The amended theorem applied to the concrete store
`σw`: the overridden key `x` takes the override's value, `z` (null in the
override, absent in the base) stays absent, and the merged mapping's
`text_to_speech` is the base sub-dict overlaid with the override's. -/
theorem C1_witness :
    alookup (resultDict (merge_configs σw 0 1)) "x" = some (Val.vstr "ox")
    ∧ alookup (resultDict (merge_configs σw 0 1)) "z" = none
    ∧ alookup (resultDict (merge_configs σw 0 1)) "text_to_speech"
        = some (Val.vref 2)
    ∧ alookup (merge_configs σw 0 1).1 2
        = some [("q", Val.vstr "v2"), ("a", Val.vstr "b1")] := by
  have h := C1_merge_configs_amended σw 0 1 bdw odw (by decide) (by decide)
    (by decide) σw_wfb σw_wfo
  have h2 := h.2.1 2 3 [("q", Val.vstr "v1"), ("a", Val.vstr "b1")]
    [("q", Val.vstr "v2")] (by decide) (by decide) (by decide) (by decide)
  exact ⟨(h.1 "x" (by decide)).trans (by decide),
    (h.1 "z" (by decide)).trans (by decide),
    h2.1,
    h2.2.1.trans (by decide)⟩

/-- **C9, witness.**  The amended theorem applied to `σw`: the base's
top-level dict and the override's sub-dict survive the call, while the
base's `text_to_speech` sub-dict (address 2) is mutated in place. -/
theorem C9_witness :
    alookup (merge_configs σw 0 1).1 0 = some bdw
    ∧ alookup (merge_configs σw 0 1).1 3 = some [("q", Val.vstr "v2")]
    ∧ alookup (merge_configs σw 0 1).1 2
        = some [("q", Val.vstr "v2"), ("a", Val.vstr "b1")] := by
  have h := C9_merge_configs_amended σw 0 1 bdw odw 2 3
    [("q", Val.vstr "v1"), ("a", Val.vstr "b1")] [("q", Val.vstr "v2")]
    (by decide) (by decide) (by decide) (by decide) (by decide) (by decide)
    (by decide) (by decide)
  exact ⟨h.1, h.2.2.1 (by decide), h.2.2.2.1.trans (by decide)⟩

/-! ### Text-input handling (fast_app.py lines 101-112) -/

/-- The literal separator `'\n\n---------\n\n'` used to join list-valued
text inputs. -/
def textSeparator : String := "\n\n---------\n\n"

/-- The runtime shape of `data['text']`: absent, a `str`, a `list` (of
strings — `str(text)` is the identity on them), or some other type. -/
inductive TextField where
  | absent
  | pyStr (s : String)
  | pyList (l : List String)
  | otherType
deriving Repr

/-- Shallow embedding of the text-input block: a list is joined with
`'\n\n---------\n\n'.join(str(text) for text in text_data if text)` —
the `if text` filter drops falsy (empty) strings; a scalar string is used
as-is; any other type raises
`ValueError("Text input must be a string or array of strings")`. -/
def handleTextInput : TextField → Except String (Option String)
  | .absent => .ok none
  | .pyList l =>
      .ok (some (String.intercalate textSeparator (l.filter (fun s => !(s == "")))))
  | .pyStr s => .ok (some s)
  | .otherType => .error "Text input must be a string or array of strings"

/-- Modelled from the claim's words: the kept entries joined with the
separator appearing only *between* entries. -/
def joinKept : List String → String
  | [] => ""
  | [s] => s
  | s :: rest => s ++ textSeparator ++ joinKept rest

/-- Helper: the separator-prefixed tail of a join. -/
def sepPrefixed : List String → String
  | [] => ""
  | a :: as => textSeparator ++ a ++ sepPrefixed as

theorem intercalate_go_eq (acc : String) (l : List String) :
    String.intercalate.go acc textSeparator l = acc ++ sepPrefixed l := by
  induction l generalizing acc with
  | nil =>
      simp [show String.intercalate.go acc textSeparator [] = acc from rfl,
        sepPrefixed]
  | cons a as ih =>
      rw [show String.intercalate.go acc textSeparator (a :: as)
          = String.intercalate.go (acc ++ textSeparator ++ a) textSeparator as
          from rfl, ih]
      simp [sepPrefixed, String.append_assoc]

theorem joinKept_cons (a : String) (as : List String) :
    joinKept (a :: as) = a ++ sepPrefixed as := by
  induction as generalizing a with
  | nil => simp [joinKept, sepPrefixed]
  | cons b bs ih =>
      rw [show joinKept (a :: b :: bs) = a ++ textSeparator ++ joinKept (b :: bs)
          from rfl, ih b]
      simp [sepPrefixed, String.append_assoc]

/-- `String.intercalate` is exactly the claim's "separator only between
entries" join. -/
theorem intercalate_eq_joinKept (l : List String) :
    String.intercalate textSeparator l = joinKept l := by
  cases l with
  | nil => rfl
  | cons a as =>
      rw [show String.intercalate textSeparator (a :: as)
          = String.intercalate.go a textSeparator as from rfl,
        intercalate_go_eq, joinKept_cons]

/-! #### Claim C6 -/

/-- **C6.**  A list-valued `text` is joined as: drop the empty entries,
then interleave the literal separator `"\n\n---------\n\n"` strictly
between the kept entries (`["a", "", "b"]` yields exactly
`"a\n\n---------\n\nb"`); a scalar string passes through unchanged; any
other type fails with the `ValueError` the endpoint raises. -/
theorem C6_text_join :
    (∀ l : List String,
      handleTextInput (.pyList l)
        = .ok (some (joinKept (l.filter (fun s => !(s == ""))))))
    ∧ (∀ s, handleTextInput (.pyStr s) = .ok (some s))
    ∧ handleTextInput .otherType
        = .error "Text input must be a string or array of strings"
    ∧ handleTextInput (.pyList ["a", "", "b"])
        = .ok (some "a\n\n---------\n\nb") := by
    refine ⟨?_, fun s => rfl, rfl, ?_⟩
    · intro l
      simp [handleTextInput, intercalate_eq_joinKept]
    · simp [handleTextInput]
      rfl

/-! ### Auth middleware (`verify_token`, fast_app.py lines 64-76) -/

/-- An inbound HTTP request as the middleware sees it: the URL path and
the optional `X-Podpod-Access-Token` header
(`request.headers.get(...)` returns `None` when the header is absent). -/
structure HttpReq where
  path : String
  accessToken : Option String
deriving DecidableEq, Repr

/-- What the middleware produces: either a short-circuit JSON response
(never calling the downstream handler) or the downstream handler's own
response `a` obtained via `call_next`. -/
inductive MwOut (α : Type) where
  | unauthorized (status : Nat) (message : String)
  | handled (a : α)
deriving DecidableEq, Repr

/-- Shallow embedding of the `verify_token` middleware.  `secret` is
`os.getenv("PODPOD_API_ACCESS_TOKEN")` (`none` when the variable is
unset); `callNext` is `call_next`, i.e. the rest of the application
(including the generation endpoint).  Source order:
* `/health` bypasses the check entirely;
* `not token` is true for a missing header and for the empty string;
* `token != os.getenv(...)`: in Python a `str` never equals `None`, so an
  unset secret fails every comparison. -/
def verify_token {α : Type} (secret : Option String) (req : HttpReq)
    (callNext : HttpReq → α) : MwOut α :=
  if req.path = "/health" then .handled (callNext req)
  else
    match req.accessToken with
    | none => .unauthorized 401 "Invalid or missing access token"
    | some t =>
      if t = "" then .unauthorized 401 "Invalid or missing access token"
      else
        match secret with
        | none => .unauthorized 401 "Invalid or missing access token"
        | some s =>
          if t = s then .handled (callNext req)
          else .unauthorized 401 "Invalid or missing access token"

/-! #### Claim C4 -/

/-- **C4.**  With a configured secret: any request to a non-health path
whose token header is missing or differs from the secret gets the exact
`401 {"message": "Invalid or missing access token"}` response — for
*every* possible downstream handler, so the generation collaborator is
never invoked — and `/health` always passes straight through to the
handler. -/
theorem C4_auth_gate {α : Type} (secret : String) (req : HttpReq)
    (next : HttpReq → α) :
    (req.path ≠ "/health" →
      (req.accessToken = none ∨ req.accessToken ≠ some secret) →
      verify_token (some secret) req next
        = .unauthorized 401 "Invalid or missing access token")
    ∧ (req.path = "/health" →
      verify_token (some secret) req next = .handled (next req)) := by
  constructor
  · intro hpath htok
    cases htokv : req.accessToken with
    | none => simp [verify_token, hpath, htokv]
    | some t =>
        rcases htok with h | h
        · rw [htokv] at h
          exact Option.noConfusion h
        · rw [htokv] at h
          have hts : t ≠ secret := fun hh => h (by rw [hh])
          by_cases ht : t = "" <;> simp [verify_token, hpath, htokv, ht, hts]
  · intro hpath
    simp [verify_token, hpath]

/-- **C4, witness.**  A wrong token on `/generate` is rejected with the
exact 401 body (for a concrete downstream handler), and `/health` passes
through. -/
theorem C4_witness :
    verify_token (some "s3cret") ⟨"/generate", some "wrong"⟩ (fun _ => (0 : Nat))
      = .unauthorized 401 "Invalid or missing access token"
    ∧ verify_token (some "s3cret") ⟨"/health", none⟩ (fun _ => (7 : Nat))
      = .handled 7 := by
  exact ⟨(C4_auth_gate "s3cret" ⟨"/generate", some "wrong"⟩ (fun _ => 0)).1
      (by decide) (Or.inr (by decide)),
    (C4_auth_gate "s3cret" ⟨"/health", none⟩ (fun _ => 7)).2 rfl⟩

/-! #### Claim C10 -/

/-- **C10.**  When `PODPOD_API_ACCESS_TOKEN` is unset the middleware
fails closed: every request to a non-health path is rejected with the
401 response regardless of what token header (if any) it carries,
because a supplied `str` token never compares equal to Python's `None`. -/
theorem C10_fail_closed {α : Type} (req : HttpReq) (next : HttpReq → α)
    (hpath : req.path ≠ "/health") :
    verify_token none req next
      = .unauthorized 401 "Invalid or missing access token" := by
  cases htokv : req.accessToken with
  | none => simp [verify_token, hpath, htokv]
  | some t => by_cases ht : t = "" <;> simp [verify_token, hpath, htokv, ht]

/-- **C10, witness.**  With the secret unset, even a non-empty supplied
token is rejected on `/generate`. -/
theorem C10_witness :
    verify_token none ⟨"/generate", some "anything"⟩ (fun _ => (0 : Nat))
      = .unauthorized 401 "Invalid or missing access token" :=
  C10_fail_closed ⟨"/generate", some "anything"⟩ (fun _ => 0) (by decide)

/-! ### `getAudioMetadata` (fast_app.py lines 322-371) -/

/-- `os.path.splitext(p)[1]` on POSIX: the extension starts at the last
`'.'` of the basename, provided some earlier basename character is not a
dot (so `".bashrc"` has no extension).  Computed on the reversed
character list: take the reversed basename (up to the last `'/'`), find
its first `'.'`, and require a non-dot character after it. -/
def splitextExt (p : String) : String :=
  let base := p.data.reverse.takeWhile (fun c => c ≠ '/')
  match base.findIdx? (fun c => c = '.') with
  | none => ""
  | some k =>
      if (base.drop (k + 1)).any (fun c => c ≠ '.') then
        String.mk ('.' :: (base.take k).reverse)
      else ""

/-- Python `str.lower()` (character-wise lowering; the extensions in the
table are ASCII, where `Char.toLower` agrees with Python). -/
def stringToLower (s : String) : String := String.mk (s.data.map Char.toLower)

/-- The fixed extension → MIME type table (`content_type_map`). -/
def content_type_map : List (String × String) :=
  [(".mp3", "audio/mpeg"), (".wav", "audio/wav"), (".m4a", "audio/mp4"),
   (".aac", "audio/aac"), (".ogg", "audio/ogg")]

/-- The metadata dict the function returns. -/
structure AudioMetadata where
  audio_length : String
  audio_file_size : String
  audio_content_type : String
deriving DecidableEq, Repr

/-- Shallow embedding of `getAudioMetadata`.  The two fallible
collaborator calls are inputs: `decodeMs` is `AudioSegment.from_file`'s
result (`some` of the duration in integer milliseconds — `len(audio)`,
or `none` if decoding raises), `fileSize` is `os.path.getsize`'s result.
On success the duration is `int(ms / 1000)` — truncation, i.e. `ms / 1000`
in `Nat` — stringified, the size is stringified, and the lower-cased
extension is looked up in the table with default `"audio/mpeg"`.  Any
failure lands in the `except` branch: empty length/size strings and
default content type.  The function itself never raises. -/
def getAudioMetadata (audio_file_path : String)
    (decodeMs : Option Nat) (fileSize : Option Nat) : AudioMetadata :=
  match decodeMs, fileSize with
  | some ms, some sz =>
      { audio_length := toString (ms / 1000)
        audio_file_size := toString sz
        audio_content_type :=
          (alookup content_type_map
            (stringToLower (splitextExt audio_file_path))).getD "audio/mpeg" }
  | _, _ =>
      { audio_length := ""
        audio_file_size := ""
        audio_content_type := "audio/mpeg" }

/-- The claim's fixed table, written from the spec's words. -/
def contentTypeSpec (ext : String) : String :=
  if ext = ".mp3" then "audio/mpeg"
  else if ext = ".wav" then "audio/wav"
  else if ext = ".m4a" then "audio/mp4"
  else if ext = ".aac" then "audio/aac"
  else if ext = ".ogg" then "audio/ogg"
  else "audio/mpeg"

theorem content_type_map_spec (x : String) :
    (alookup content_type_map x).getD "audio/mpeg" = contentTypeSpec x := by
  simp only [content_type_map, alookup, contentTypeSpec]
  by_cases h1 : x = ".mp3"
  · subst h1; rfl
  · by_cases h2 : x = ".wav"
    · subst h2; rfl
    · by_cases h3 : x = ".m4a"
      · subst h3; rfl
      · by_cases h4 : x = ".aac"
        · subst h4; rfl
        · by_cases h5 : x = ".ogg"
          · subst h5; rfl
          · simp [h1, h2, h3, h4, h5, Ne.symm h1, Ne.symm h2, Ne.symm h3,
              Ne.symm h4, Ne.symm h5]

/-! #### Claim C8 -/

/-- **C8.**  `getAudioMetadata` is total (never throws), and:
on success it returns the duration in whole seconds (milliseconds
truncated by integer division) stringified, the byte size stringified,
and the content type given by the claim's fixed extension table with
default `audio/mpeg`; on any decode or size failure it returns empty
length/size strings and `audio/mpeg`. -/
theorem C8_getAudioMetadata (p : String) (decodeMs fileSize : Option Nat) :
    (∀ ms sz, decodeMs = some ms → fileSize = some sz →
      getAudioMetadata p decodeMs fileSize =
        { audio_length := toString (ms / 1000)
          audio_file_size := toString sz
          audio_content_type := contentTypeSpec (stringToLower (splitextExt p)) })
    ∧ (decodeMs = none ∨ fileSize = none →
      getAudioMetadata p decodeMs fileSize =
        { audio_length := ""
          audio_file_size := ""
          audio_content_type := "audio/mpeg" }) := by
  constructor
  · intro ms sz hms hsz
    subst hms
    subst hsz
    simp [getAudioMetadata, content_type_map_spec]
  · intro h
    rcases h with h | h
    · subst h
      rfl
    · subst h
      cases decodeMs <;> rfl

/-- **C8, witness.**  Concrete run: a 2500 ms `.MP3` file of 999 bytes
gives length `"2"`, size `"999"`, type `audio/mpeg` (case-insensitive
extension); a failed decode gives the empty-string defaults. -/
theorem C8_witness :
    getAudioMetadata "temp_audio/pod.MP3" (some 2500) (some 999)
      = { audio_length := "2", audio_file_size := "999",
          audio_content_type := "audio/mpeg" }
    ∧ getAudioMetadata "pod.wav" none (some 7)
      = { audio_length := "", audio_file_size := "",
          audio_content_type := "audio/mpeg" } := by
  constructor
  · exact ((C8_getAudioMetadata "temp_audio/pod.MP3" (some 2500) (some 999)).1
      2500 999 rfl rfl).trans (by decide)
  · exact (C8_getAudioMetadata "pod.wav" none (some 7)).2 (Or.inl rfl)

/-! ### Filesystem and collaborator environment for the request flow -/

/-- The temp directory's state: existing files with their byte contents,
plus the log of every (successful) `os.remove` call, so "deleted exactly
once" and "no double delete" are expressible. -/
structure FS where
  files : List (String × List Nat)
  removedLog : List String
deriving DecidableEq, Repr

def FS.existsFile (fs : FS) (p : String) : Bool := (alookup fs.files p).isSome

/-- File creation / overwrite (`NamedTemporaryFile`, `export`). -/
def FS.createFile (fs : FS) (p : String) (c : List Nat) : FS :=
  { files := aset fs.files p c, removedLog := fs.removedLog }

/-- `os.remove(p)` (in the traces below `p` always exists, matching the
code's unguarded calls, which would raise on a missing file). -/
def FS.removeFile (fs : FS) (p : String) : FS :=
  { files := aerase fs.files p, removedLog := fs.removedLog ++ [p] }

/-- Outcomes of the external collaborator calls made during one request,
fixed up front: whether `intro.wav` exists, whether each pydub
decode/encode step succeeds, the unique name `NamedTemporaryFile` picks
and the bytes `export` writes, what `AudioSegment.from_file` returns
inside `getAudioMetadata`, the S3 upload's result (public URL or raised
error message), and whether each Supabase update succeeds. -/
structure Env where
  introExists : Bool
  introDecodeOk : Bool
  podcastDecodeOk : Bool
  exportOk : Bool
  tempName : String
  exportedContent : List Nat
  metaDecodeMs : Option Nat
  uploadResult : Except String String
  supabaseCompletionOk : Bool
  supabaseStatusOk : Bool
deriving Repr

/-- Shallow embedding of `addIntroToAudio` (fast_app.py lines 373-417).
Source order: missing `intro.wav` returns the input path untouched;
then, under `try`: `AudioSegment.from_wav(intro_path)`,
`AudioSegment.from_file(audio_file_path)`, `intro + podcast`,
`NamedTemporaryFile(delete=False)` (which *creates* the temp file),
`combined.export(temp_path)`, a guarded `os.remove(audio_file_path)`,
and return of the temp path; any failure is caught and the original path
returned (so a post-`NamedTemporaryFile` failure leaves the temp file
behind).  The function never raises. -/
def addIntroToAudio (env : Env) (fs : FS) (audio_file_path : String) :
    FS × String :=
  if !env.introExists then (fs, audio_file_path)
  else if !env.introDecodeOk then (fs, audio_file_path)
  else if !env.podcastDecodeOk then (fs, audio_file_path)
  else
    let fs1 := fs.createFile env.tempName []
    if !env.exportOk then (fs1, audio_file_path)
    else
      let fs2 := fs1.createFile env.tempName env.exportedContent
      let fs3 := if fs2.existsFile audio_file_path
                 then fs2.removeFile audio_file_path else fs2
      (fs3, env.tempName)

/-- A successful HTTP response: `JSONResponse({"audio_url": url})`, or
the raw-bytes `Response` with its media type and `Content-Length`
header. -/
inductive Resp where
  | jsonOk (audio_url : String)
  | rawAudio (body : List Nat) (mediaType : String) (contentLength : String)
deriving DecidableEq, Repr

/-- The handler's overall outcome: a 200 response or an
`HTTPException(status, detail)`. -/
inductive Outcome where
  | ok (r : Resp)
  | httpError (status : Nat) (detail : String)
deriving DecidableEq, Repr

/-- A Supabase update attempt (`update_podcast_completion` /
`update_podcast_status('failed')`), with whether the call succeeded —
both are wrapped in `try/except` in the source, so a `False` here never
alters control flow. -/
inductive StatusWrite where
  | completion (pid url len ctype size : String) (succeeded : Bool)
  | failedStatus (pid reason : String) (succeeded : Bool)
deriving DecidableEq, Repr

/-- Everything observable about one request: the final temp-dir state,
the Supabase writes attempted, and the HTTP outcome. -/
structure RunResult where
  fs : FS
  statusWrites : List StatusWrite
  outcome : Outcome
deriving DecidableEq, Repr

/-- Python truthiness of `data.get('podcast_id')`: absent (or JSON null,
which `.get` also returns as `None`) and the empty string are falsy. -/
def truthy : Option String → Bool
  | none => false
  | some s => !(s == "")

/-- The `except Exception` branch (fast_app.py lines 254-272): if
`podcast_id` is truthy, best-effort `update_podcast_status('failed',
reason)` whose own failure is swallowed; then
`raise HTTPException(500, message)`.  The filesystem is untouched. -/
def failPath (env : Env) (fs : FS) (pid : Option String) (msg : String) :
    RunResult :=
  { fs := fs
    statusWrites :=
      if truthy pid then [.failedStatus (pid.getD "") msg env.supabaseStatusOk]
      else []
    outcome := .httpError 500 msg }

/-- The shape of `generate_podcast(...)`'s result as the handler probes
it: the call raised; a `str` (with `os.path.isfile` true or false); an
object with an `audio_path` attribute; or anything else. -/
inductive GenResult where
  | genError (msg : String)
  | strResult (p : String) (isfile : Bool)
  | artifact (p : String)
  | other
deriving Repr

/-- The common disposition body (fast_app.py lines 164-206 for the `str`
shape, 208-250 for the `audio_path` shape — the two branches are
verbatim copies): with truthy `podcast_id`, run `addIntroToAudio`, then
`getAudioMetadata` on the new path (decode outcome from `env`, size read
from the filesystem), then upload — a raised upload error propagates to
the outer `except`; on upload success the completion update is attempted
(its failure swallowed), the intro'd temp file is removed, and
`{"audio_url": url}` returned.  Without a truthy `podcast_id`, the raw
bytes of the un-intro'd file are read, the file removed, and the bytes
returned as `audio/mpeg` with `Content-Length: str(len(audio_data))`. -/
def dispositionPath (env : Env) (fs : FS) (p : String) (pid : Option String) :
    RunResult :=
  if truthy pid then
    let ai := addIntroToAudio env fs p
    let fs1 := ai.1
    let audio_with_intro := ai.2
    let meta := getAudioMetadata audio_with_intro env.metaDecodeMs
        ((alookup fs1.files audio_with_intro).map List.length)
    match env.uploadResult with
    | .error e => failPath env fs1 pid e
    | .ok audio_url =>
        { fs := fs1.removeFile audio_with_intro
          statusWrites := [.completion (pid.getD "") audio_url meta.audio_length
            meta.audio_content_type meta.audio_file_size env.supabaseCompletionOk]
          outcome := .ok (.jsonOk audio_url) }
  else
    match alookup fs.files p with
    | none => failPath env fs pid "file not found"
    | some audio_data =>
        { fs := fs.removeFile p
          statusWrites := []
          outcome := .ok (.rawAudio audio_data "audio/mpeg"
            (toString audio_data.length)) }

/-- Shallow embedding of the result handling of
`generate_podcast_endpoint` (fast_app.py lines 162-272), starting from
`generate_podcast`'s result.  A `str` result that is not a file, and any
other unrecognised shape, raise `HTTPException(500, "Invalid result
format")`, which the surrounding `except Exception` catches and re-raises
as a 500 (FastAPI's `str(e)` prefixes the status; the detail text is kept
plain here). -/
def generate_podcast_endpoint (env : Env) (fs : FS) (result : GenResult)
    (pid : Option String) : RunResult :=
  match result with
  | .genError msg => failPath env fs pid msg
  | .strResult p isfile =>
      if isfile then dispositionPath env fs p pid
      else failPath env fs pid "Invalid result format"
  | .artifact p => dispositionPath env fs p pid
  | .other => failPath env fs pid "Invalid result format"

/-- If the intro is missing or either decode fails, `addIntroToAudio`
returns before touching the filesystem. -/
theorem addIntro_skip (env : Env) (fs : FS) (p : String)
    (h : env.introExists = false ∨ env.introDecodeOk = false ∨
      env.podcastDecodeOk = false) :
    addIntroToAudio env fs p = (fs, p) := by
  rcases h with h | h | h
  · simp [addIntroToAudio, h]
  · cases hie : env.introExists <;> simp [addIntroToAudio, hie, h]
  · cases hie : env.introExists <;> cases hid : env.introDecodeOk <;>
      simp [addIntroToAudio, hie, hid, h]

/-- The fully successful intro run on a directory holding just the
generated file: the temp file is created with the exported bytes, the
original removed, and the temp path returned. -/
theorem addIntro_full (env : Env) (p : String) (c : List Nat)
    (log : List String)
    (hie : env.introExists = true) (hid : env.introDecodeOk = true)
    (hpd : env.podcastDecodeOk = true) (hex : env.exportOk = true)
    (htmp : env.tempName ≠ p) :
    addIntroToAudio env ⟨[(p, c)], log⟩ p
      = (⟨[(env.tempName, env.exportedContent)], log ++ [p]⟩, env.tempName) := by
  have hpt : ¬ p = env.tempName := fun h => htmp h.symm
  simp [addIntroToAudio, hie, hid, hpd, hex, FS.createFile, FS.existsFile,
    FS.removeFile, aset, aerase, alookup, hpt]

/-! #### Claim C7 -/

/-- **C7.**  `addIntroToAudio` never raises (it is a total function
here), and degrades gracefully: if the intro resource is absent it
returns the input path with the filesystem completely untouched (nothing
created, nothing deleted); and on any decode/encode failure it returns
the original input path, with the original file's contents intact and no
deletion performed. -/
theorem C7_addIntroToAudio (env : Env) (fs : FS) (p : String)
    (htmp : env.tempName ≠ p) :
    (env.introExists = false → addIntroToAudio env fs p = (fs, p))
    ∧ ((env.introDecodeOk = false ∨ env.podcastDecodeOk = false ∨
          env.exportOk = false) →
        (addIntroToAudio env fs p).2 = p
        ∧ alookup (addIntroToAudio env fs p).1.files p = alookup fs.files p
        ∧ (addIntroToAudio env fs p).1.removedLog = fs.removedLog) := by
  constructor
  · intro h
    simp [addIntroToAudio, h]
  · intro h
    cases hie : env.introExists with
    | false => simp [addIntroToAudio, hie]
    | true =>
        cases hid : env.introDecodeOk with
        | false => simp [addIntroToAudio, hie, hid]
        | true =>
            cases hpd : env.podcastDecodeOk with
            | false => simp [addIntroToAudio, hie, hid, hpd]
            | true =>
                cases hex : env.exportOk with
                | false =>
                    simp [addIntroToAudio, hie, hid, hpd, hex, FS.createFile,
                      alookup_aset, htmp]
                | true => rcases h with h | h | h <;> simp_all

/-- Baseline environment for the concrete runs: intro present, all
collaborators succeed. -/
def envOk : Env :=
  { introExists := true, introDecodeOk := true, podcastDecodeOk := true,
    exportOk := true, tempName := "temp_audio/t1.mp3",
    exportedContent := [9, 9], metaDecodeMs := some 1000,
    uploadResult := .ok "https://cdn/x.mp3",
    supabaseCompletionOk := true, supabaseStatusOk := true }

/-- The generated artifact sitting alone in the temp directory. -/
def fsw : FS := ⟨[("g.mp3", [1, 2, 3])], []⟩

/-- **C7, witness.**  With the intro missing the input comes straight
back and the filesystem is untouched; with a failing export the original
path comes back, its file intact and nothing deleted. -/
theorem C7_witness :
    addIntroToAudio { envOk with introExists := false } fsw "g.mp3"
      = (fsw, "g.mp3")
    ∧ (addIntroToAudio { envOk with exportOk := false } fsw "g.mp3").2
      = "g.mp3"
    ∧ alookup
        (addIntroToAudio { envOk with exportOk := false } fsw "g.mp3").1.files
        "g.mp3" = some [1, 2, 3]
    ∧ (addIntroToAudio { envOk with exportOk := false } fsw "g.mp3").1.removedLog
      = [] := by
  have h1 := (C7_addIntroToAudio { envOk with introExists := false } fsw
    "g.mp3" (by decide)).1 rfl
  have h2 := (C7_addIntroToAudio { envOk with exportOk := false } fsw
    "g.mp3" (by decide)).2 (Or.inr (Or.inr rfl))
  exact ⟨h1, h2.1, h2.2.1.trans (by decide), h2.2.2.trans rfl⟩

/-! #### Claim C2 -/

/-- **C2, counterexample.**  When the S3 upload raises (intro processing
having succeeded), the handler's `except` branch re-raises the 500
without any cleanup: the intro-processed temp file
(`temp_audio/t1.mp3`) is still on disk when the handler returns — a
request on whose exit path a temp file created during the request is
*not* deleted, contradicting the claimed invariant. -/
theorem C2_counterexample :
    (generate_podcast_endpoint { envOk with uploadResult := .error "upload failed" }
        fsw (.strResult "g.mp3" true) (some "pid1")).fs.files
      = [("temp_audio/t1.mp3", [9, 9])]
    ∧ (generate_podcast_endpoint { envOk with uploadResult := .error "upload failed" }
        fsw (.strResult "g.mp3" true) (some "pid1")).fs.removedLog
      = ["g.mp3"]
    ∧ (generate_podcast_endpoint { envOk with uploadResult := .error "upload failed" }
        fsw (.strResult "g.mp3" true) (some "pid1")).outcome
      = .httpError 500 "upload failed" := by
  decide

/-- **C2 (amended).**  On every request that returns a success response
(raw bytes or `{audio_url}`), and provided the intro pipeline does not
fail at the export step after creating its temp file, every temporary
file created during the request is deleted exactly once before the
handler returns: the temp directory ends empty and the deletion log has
no duplicates.  When generation itself raises, no file is touched.  (The
upload-failure path, per the counterexample, leaks the intro-processed
file; a failing export likewise strands the fresh `NamedTemporaryFile`.) -/
theorem C2_temp_cleanup_amended (env : Env) (p : String) (c : List Nat)
    (pid : Option String) (res : GenResult)
    (htmp : env.tempName ≠ p)
    (hres : res = .strResult p true ∨ res = .artifact p)
    (hexp : env.introExists = true → env.introDecodeOk = true →
      env.podcastDecodeOk = true → env.exportOk = true) :
    (∀ rr,
      (generate_podcast_endpoint env ⟨[(p, c)], []⟩ res pid).outcome = .ok rr →
      (generate_podcast_endpoint env ⟨[(p, c)], []⟩ res pid).fs.files = []
      ∧ (generate_podcast_endpoint env ⟨[(p, c)], []⟩ res pid).fs.removedLog.Nodup)
    ∧ (∀ m, (generate_podcast_endpoint env ⟨[(p, c)], []⟩ (.genError m) pid).fs
        = ⟨[(p, c)], []⟩) := by
  constructor
  · intro rr hok
    have hrun : generate_podcast_endpoint env ⟨[(p, c)], []⟩ res pid
        = dispositionPath env ⟨[(p, c)], []⟩ p pid := by
      rcases hres with h | h <;> subst h <;> rfl
    rw [hrun] at hok ⊢
    by_cases hpid : truthy pid = true
    · -- upload-and-record path
      cases hup : env.uploadResult with
      | error e =>
          exfalso
          by_cases hfull : env.introExists = true ∧ env.introDecodeOk = true ∧
              env.podcastDecodeOk = true
          · rw [dispositionPath.eq_def] at hok
            simp only [hpid, if_true,
              addIntro_full env p c [] hfull.1 hfull.2.1 hfull.2.2
                (hexp hfull.1 hfull.2.1 hfull.2.2) htmp, hup] at hok
            simp [failPath] at hok
          · have hskip : env.introExists = false ∨ env.introDecodeOk = false ∨
                env.podcastDecodeOk = false := by
              rcases Bool.eq_false_or_eq_true env.introExists with h | h
              · rcases Bool.eq_false_or_eq_true env.introDecodeOk with h2 | h2
                · rcases Bool.eq_false_or_eq_true env.podcastDecodeOk with h3 | h3
                  · exact absurd ⟨h, h2, h3⟩ hfull
                  · exact Or.inr (Or.inr h3)
                · exact Or.inr (Or.inl h2)
              · exact Or.inl h
            rw [dispositionPath.eq_def] at hok
            simp only [hpid, if_true, addIntro_skip env _ p hskip, hup] at hok
            simp [failPath] at hok
      | ok url =>
          by_cases hfull : env.introExists = true ∧ env.introDecodeOk = true ∧
              env.podcastDecodeOk = true
          · rw [dispositionPath.eq_def]
            simp only [hpid, if_true,
              addIntro_full env p c [] hfull.1 hfull.2.1 hfull.2.2
                (hexp hfull.1 hfull.2.1 hfull.2.2) htmp, hup]
            refine ⟨?_, ?_⟩
            · simp [FS.removeFile, aerase]
            · simp [FS.removeFile, List.Nodup]
              exact fun h => htmp h.symm
          · have hskip : env.introExists = false ∨ env.introDecodeOk = false ∨
                env.podcastDecodeOk = false := by
              rcases Bool.eq_false_or_eq_true env.introExists with h | h
              · rcases Bool.eq_false_or_eq_true env.introDecodeOk with h2 | h2
                · rcases Bool.eq_false_or_eq_true env.podcastDecodeOk with h3 | h3
                  · exact absurd ⟨h, h2, h3⟩ hfull
                  · exact Or.inr (Or.inr h3)
                · exact Or.inr (Or.inl h2)
              · exact Or.inl h
            rw [dispositionPath.eq_def]
            simp only [hpid, if_true, addIntro_skip env _ p hskip, hup]
            refine ⟨?_, ?_⟩
            · simp [FS.removeFile, aerase]
            · simp [FS.removeFile, List.Nodup]
    · -- raw-bytes path
      rw [Bool.not_eq_true] at hpid
      rw [dispositionPath.eq_def]
      simp only [hpid, Bool.false_eq_true, if_false]
      have hl : alookup (FS.files ⟨[(p, c)], []⟩) p = some c := by
        simp [alookup]
      rw [hl]
      refine ⟨?_, ?_⟩
      · simp [FS.removeFile, aerase]
      · simp [FS.removeFile, List.Nodup]
  · intro m
    rfl

/-- **C2, witness.**  A fully successful S3-path run of the amended
theorem's setting: temp directory empty at return, each file deleted
once. -/
theorem C2_witness :
    (generate_podcast_endpoint envOk fsw (.strResult "g.mp3" true)
        (some "pid1")).outcome = .ok (.jsonOk "https://cdn/x.mp3")
    ∧ (generate_podcast_endpoint envOk ⟨[("g.mp3", [1, 2, 3])], []⟩
        (.strResult "g.mp3" true) (some "pid1")).fs.files = []
    ∧ (generate_podcast_endpoint envOk ⟨[("g.mp3", [1, 2, 3])], []⟩
        (.strResult "g.mp3" true) (some "pid1")).fs.removedLog.Nodup := by
  have h := (C2_temp_cleanup_amended envOk "g.mp3" [1, 2, 3] (some "pid1")
    (.strResult "g.mp3" true) (by decide) (Or.inl rfl)
    (fun _ _ _ => rfl)).1 (.jsonOk "https://cdn/x.mp3") (by decide)
  exact ⟨by decide, h.1, h.2⟩

/-! #### Claim C3 -/

/-- **C3, counterexample.**  `podcast_id` *present* in the body but equal
to the empty string: `data.get('podcast_id')` is falsy, so the handler
takes the raw-bytes branch — the response is bytes, not
`{"audio_url"}`, although `podcast_id` was present in the request. -/
theorem C3_counterexample :
    (generate_podcast_endpoint envOk fsw (.strResult "g.mp3" true)
        (some "")).outcome
      = .ok (.rawAudio [1, 2, 3] "audio/mpeg" "3") := by
  decide

/-- **C3 (amended).**  For every successfully dispositioned request: if
`podcast_id` is present *and truthy* (non-empty, non-null) the response
is a JSON `{"audio_url": url}` object, never raw bytes; if it is absent,
null, or empty, the response is exactly the raw bytes of the un-intro'd
generated file, with media type `audio/mpeg` and a `Content-Length`
header equal to the byte count of the body. -/
theorem C3_disposition_amended (env : Env) (fs : FS) (res : GenResult)
    (pid : Option String) (p : String)
    (hres : res = .strResult p true ∨ res = .artifact p) :
    ∀ rr, (generate_podcast_endpoint env fs res pid).outcome = .ok rr →
      (truthy pid = true → ∃ url, rr = .jsonOk url)
      ∧ (truthy pid = false → ∃ body, alookup fs.files p = some body
          ∧ rr = .rawAudio body "audio/mpeg" (toString body.length)) := by
  have hrun : generate_podcast_endpoint env fs res pid
      = dispositionPath env fs p pid := by
    rcases hres with h | h <;> subst h <;> rfl
  rw [hrun]
  intro rr hok
  constructor
  · intro hpid
    rw [dispositionPath.eq_def] at hok
    simp only [hpid, if_true] at hok
    cases hup : env.uploadResult with
    | error e =>
        rw [hup] at hok
        simp [failPath] at hok
    | ok url =>
        rw [hup] at hok
        simp only [Outcome.ok.injEq] at hok
        exact ⟨url, hok.symm⟩
  · intro hpid
    rw [dispositionPath.eq_def] at hok
    simp only [hpid, Bool.false_eq_true, if_false] at hok
    cases hl : alookup fs.files p with
    | none =>
        rw [hl] at hok
        simp [failPath] at hok
    | some body =>
        rw [hl] at hok
        simp only [Outcome.ok.injEq] at hok
        exact ⟨body, rfl, hok.symm⟩

/-- **C3, witness.**  A truthy-`podcast_id` run produces the JSON
response, and a no-`podcast_id` run on the same artifact produces the
raw `[1,2,3]` body with `Content-Length` `"3"`. -/
theorem C3_witness :
    ((truthy (some "pid1") = true →
        ∃ url, Resp.jsonOk "https://cdn/x.mp3" = .jsonOk url)
      ∧ (truthy (some "pid1") = false →
        ∃ body, alookup fsw.files "g.mp3" = some body
          ∧ Resp.jsonOk "https://cdn/x.mp3"
            = .rawAudio body "audio/mpeg" (toString body.length)))
    ∧ ((truthy none = true →
        ∃ url, Resp.rawAudio [1, 2, 3] "audio/mpeg" "3" = .jsonOk url)
      ∧ (truthy none = false →
        ∃ body, alookup fsw.files "g.mp3" = some body
          ∧ Resp.rawAudio [1, 2, 3] "audio/mpeg" "3"
            = .rawAudio body "audio/mpeg" (toString body.length))) := by
  constructor
  · exact C3_disposition_amended envOk fsw (.strResult "g.mp3" true)
      (some "pid1") "g.mp3" (Or.inl rfl) (.jsonOk "https://cdn/x.mp3")
      (by decide)
  · exact C3_disposition_amended envOk fsw (.strResult "g.mp3" true)
      none "g.mp3" (Or.inl rfl) (.rawAudio [1, 2, 3] "audio/mpeg" "3")
      (by decide)

/-! #### Claim C5 -/

/-- **C5.**  Supabase failure isolation: for a successful generation with
truthy `podcast_id` and a successful upload, even when
`update_podcast_completion` throws (`supabaseCompletionOk := false`), the
write is merely attempted-and-logged (`succeeded = false` in the status
log) and the request still returns the 200 `{"audio_url": url}`
response. -/
theorem C5_supabase_isolation (env : Env) (fs : FS) (res : GenResult)
    (pid : Option String) (p url : String)
    (hres : res = .strResult p true ∨ res = .artifact p)
    (hpid : truthy pid = true)
    (hupload : env.uploadResult = .ok url)
    (hsup : env.supabaseCompletionOk = false) :
    (generate_podcast_endpoint env fs res pid).outcome = .ok (.jsonOk url)
    ∧ ∃ len ctype size,
        (generate_podcast_endpoint env fs res pid).statusWrites
          = [.completion (pid.getD "") url len ctype size false] := by
  have hrun : generate_podcast_endpoint env fs res pid
      = dispositionPath env fs p pid := by
    rcases hres with h | h <;> subst h <;> rfl
  rw [hrun, dispositionPath.eq_def]
  simp only [hpid, if_true, hupload, hsup]
  exact ⟨trivial, _, _, _, rfl⟩

/-- **C5, witness.**  Concrete run with a failing completion update:
response is still `200 {"audio_url": ...}` and the failed write is in
the log. -/
theorem C5_witness :
    (generate_podcast_endpoint { envOk with supabaseCompletionOk := false }
        fsw (.strResult "g.mp3" true) (some "pid1")).outcome
      = .ok (.jsonOk "https://cdn/x.mp3")
    ∧ ∃ len ctype size,
        (generate_podcast_endpoint { envOk with supabaseCompletionOk := false }
            fsw (.strResult "g.mp3" true) (some "pid1")).statusWrites
          = [.completion "pid1" "https://cdn/x.mp3" len ctype size false] := by
  exact C5_supabase_isolation { envOk with supabaseCompletionOk := false }
    fsw (.strResult "g.mp3" true) (some "pid1") "g.mp3" "https://cdn/x.mp3"
    (Or.inl rfl) (by decide) rfl rfl

end Podcastify
